import Mathlib

/-!
# Shallow embedding of the Agentic-ICU core (event bus, agents, coordinator)

This file embeds, in Lean, the parts of the repository that the verified
claims are about:

* `agentic_icu/orchestration/mock_message_bus.py` — `MockMessageBus`
  (`publish`, `subscribe`, `get_messages`, the bounded per-topic buffer);
* `agentic_icu/agent_framework/base_agent.py` — `MockLLMInterface`,
  `BaseAgent.initialize`, `BaseAgent.make_decision`;
* `agentic_icu/agent_framework/clinical_agents/clinical_agents.py` —
  `PhysicianAgent`, `NurseAgent`, `PharmacistAgent` (vitals handlers,
  urgent-decision paths, `process_patient_data`);
* `agentic_icu/orchestration/workflow_coordinator.py` —
  `WorkflowCoordinator.start_simulation` / `stop_simulation`.

Modelling conventions:

* Python dicts are association lists `List (String × Val)` in insertion
  order; `Val` covers the strings, numbers and `None` that flow through the
  claims.  Numbers are embedded as rationals: every numeric literal the
  claims touch (thresholds 50/120/90/180/92/100, 38.0, 38.5, confidences
  0.75/0.78/0.82/0.85/0.90/0.95) is exactly representable in binary
  floating point, so every comparison the code performs has the same
  outcome over `ℚ` as over Python floats.
* Wall-clock timestamps, uuids and measured response times are effects; they
  are passed in as explicit parameters (their values never influence any
  control flow in the embedded code).
* Subscriber callbacks on the bus are opaque: a callback is a `Nat` identity
  together with a behaviour oracle `beh : Nat → Dict → Except String Unit`
  saying whether invoking it on a message raises.  A `publish` records the
  invocations it performs (an event log) and the error log of the
  `try/except` around each callback.  Callbacks are modelled as not calling
  back into the bus.
* Python `str.__repr__` of a dict is re-implemented for prompt composition;
  numbers are rendered as `num/den` digits rather than Python's decimal
  notation.  The only consumer of these strings is the keyword search in
  `MockLLMInterface.generate_response`, which looks for the alphabetic
  phrases "vital signs" / "medication" / "lab results"; a digits-only
  difference in number rendering cannot change any of those searches.
-/

set_option maxRecDepth 100000

namespace AgenticICU

/-- A Python value as it appears in the messages and decisions of this
system: a string, a number, or `None`. -/
inductive Val where
  | str (s : String)
  | num (q : ℚ)
  | none_
  deriving DecidableEq, Repr

/-- A Python dict in insertion order (keys are unique in every dict the
embedded code builds). -/
abbrev Dict := List (String × Val)

/-- `d.get(k)`: first value bound to `k`, if any. -/
def dget (d : Dict) (k : String) : Option Val :=
  (d.find? fun kv => kv.1 == k).map (·.2)

/-- `d[k] = v` semantics: replace the value in place when the key exists,
append otherwise (Python dicts keep insertion order on update). -/
def dictSet (d : Dict) (k : String) (v : Val) : Dict :=
  if d.any (fun kv => kv.1 == k) then
    d.map fun kv => if kv.1 == k then (kv.1, v) else kv
  else d ++ [(k, v)]

/-- `d.update(us)` / `{**d, ...us}`: apply the updates left to right. -/
def dictUpdate (d : Dict) (us : List (String × Val)) : Dict :=
  us.foldl (fun d kv => dictSet d kv.1 kv.2) d

/-- Rendering of a value inside an f-string (`str(v)` in Python): strings
are unquoted, `None` prints as `None`.  Number rendering differs from
Python's decimal notation in digits only. -/
def pyStr : Val → String
  | .str s => s
  | .num q => toString q.num ++ (if q.den = 1 then "" else "/" ++ toString q.den)
  | .none_ => "None"

/-- Rendering of a value inside a dict repr (`repr(v)`): strings are
single-quoted. -/
def pyReprVal : Val → String
  | .str s => "'" ++ s ++ "'"
  | v => pyStr v

/-- `str(d)` for a dict `d`, as interpolated into the agents' prompts. -/
def pyReprDict (d : Dict) : String :=
  "\x7b" ++ String.intercalate ", "
    (d.map fun kv => "'" ++ kv.1 ++ "': " ++ pyReprVal kv.2) ++ "\x7d"

/-- `str(d.get(k))`, as interpolated into `_make_urgent_decision`'s
prompt. -/
def pyStrGet (d : Dict) (k : String) : String :=
  match dget d k with
  | some v => pyStr v
  | none => "None"

/-! ## MockLLMInterface (base_agent.py) -/

/-- The record returned by `MockLLMInterface.generate_response`. -/
structure LLMResponse where
  recommendation : String
  confidence : ℚ
  reasoning : String
  deriving DecidableEq, Repr

/-- Boolean contiguous-sublist test (Python's `pat in s` on strings). -/
def listInfix (pat : List Char) : List Char → Bool
  | [] => pat.isEmpty
  | c :: rest => pat.isPrefixOf (c :: rest) || listInfix pat rest

/-- `kw in prompt.lower()` for a lowercase keyword `kw` (character-wise
lowering; the prompts this system composes are ASCII, where Python's
`str.lower` is exactly the per-character map). -/
def promptHas (prompt kw : String) : Bool :=
  listInfix kw.toList (prompt.toList.map Char.toLower)

/-- `MockLLMInterface.generate_response`: keyword-dispatched canned
responses (the `context` argument is never inspected by the source). -/
def generate_response (prompt : String) : LLMResponse :=
  if promptHas prompt "vital signs" then
    { recommendation := "Monitor patient closely. Consider fluid resuscitation if hypotensive."
      confidence := mkRat 85 100
      reasoning := "Based on current vital signs pattern, patient shows signs of hemodynamic instability." }
  else if promptHas prompt "medication" then
    { recommendation := "Continue current medication regimen. Monitor for drug interactions."
      confidence := mkRat 78 100
      reasoning := "Current medications are appropriate for diagnosis. No immediate changes needed." }
  else if promptHas prompt "lab results" then
    { recommendation := "Repeat labs in 6 hours. Consider electrolyte replacement if indicated."
      confidence := mkRat 82 100
      reasoning := "Lab values show mild abnormalities that require monitoring." }
  else
    { recommendation := "Continue current care plan with regular monitoring."
      confidence := mkRat 75 100
      reasoning := "Patient condition appears stable based on available data." }

/-! ## MockMessageBus (mock_message_bus.py)

State: `topics` maps a topic name to its `deque(maxlen=1000)` buffer
(`defaultdict`: absent topics read as empty), `subscribers` maps a topic
name to its callback list. -/

/-- The `maxlen=1000` bound of every topic buffer. -/
def busBound : ℕ := 1000

/-- The mutable state of a `MockMessageBus`. -/
structure Bus where
  topics : String → List Dict
  subscribers : String → List ℕ

/-- A freshly constructed bus. -/
def emptyBus : Bus := ⟨fun _ => [], fun _ => []⟩

/-- `deque(maxlen=1000).append`: append, evicting the oldest element when
the buffer is full. -/
def pushBounded (l : List Dict) (m : Dict) : List Dict :=
  let l' := l ++ [m]
  if busBound < l'.length then l'.drop (l'.length - busBound) else l'

/-- The `enriched_message` of `publish`: the payload plus `_topic`,
`_timestamp` and `_id = f"{topic}_{n}"`, where `n = len(self.topics[topic])`
at publish time. -/
def enrich (topic : String) (message : Dict) (ts : String) (n : ℕ) : Dict :=
  dictUpdate message
    [("_topic", .str topic), ("_timestamp", .str ts),
     ("_id", .str (topic ++ "_" ++ toString n))]

/-- Behaviour oracle for opaque subscriber callbacks: invoking callback `c`
on a message either returns or raises. -/
abbrev Beh := ℕ → Dict → Except String Unit

/-- Result of one `publish` call: the new bus, the callback invocations
performed (in order), the error log of the per-callback `try/except`, and
the returned boolean. -/
structure PublishResult where
  bus : Bus
  events : List (ℕ × String × Dict)
  log : List String
  ok : Bool

/-- The subscriber-notification loop of `publish`: invoke every callback in
list order; a raising callback is logged and the loop continues. -/
def dispatch (beh : Beh) (topic : String) (m : Dict) (subs : List ℕ) :
    List (ℕ × String × Dict) × List String :=
  subs.foldl
    (fun acc c =>
      match beh c m with
      | .ok _ => (acc.1 ++ [(c, topic, m)], acc.2)
      | .error e =>
          (acc.1 ++ [(c, topic, m)],
           acc.2 ++ ["Error in subscriber callback: " ++ e]))
    ([], [])

/-- `MockMessageBus.publish`: stamp the message (`_id` carries the length
of the buffer before the append), append it to the bounded buffer, then
notify the topic's subscribers.  Enrichment and append are total here, so
the surrounding `try/except` never takes its `return False` branch. -/
def publish (beh : Beh) (s : Bus) (topic : String) (message : Dict)
    (ts : String) : PublishResult :=
  let n := (s.topics topic).length
  let m := enrich topic message ts n
  let s1 : Bus :=
    { s with topics := fun t =>
        if t = topic then pushBounded (s.topics topic) m else s.topics t }
  let d := dispatch beh topic m (s.subscribers topic)
  { bus := s1, events := d.1, log := d.2, ok := true }

/-- `MockMessageBus.subscribe`: unconditionally append the callback. -/
def subscribe (s : Bus) (topic : String) (c : ℕ) : Bus :=
  { s with subscribers := fun t =>
      if t = topic then s.subscribers topic ++ [c] else s.subscribers t }

/-- `MockMessageBus.get_messages` (`get_recent`): `messages[-count:]` —
Python slice semantics make `count = 0` return the whole buffer. -/
def get_messages (s : Bus) (topic : String) (count : ℕ) : List Dict :=
  let messages := s.topics topic
  if count = 0 then messages else messages.drop (messages.length - count)

/-- One operation applied to the bus. -/
inductive BusOp where
  | pub (topic : String) (message : Dict) (ts : String)
  | sub (topic : String) (c : ℕ)
  deriving DecidableEq

/-- Accumulated observations of a run: final bus, every callback invocation
in order, and a ghost log of every published message with its topic and the
sequence number stamped on it. -/
structure RunResult where
  bus : Bus
  events : List (ℕ × String × Dict)
  plog : List (String × ℕ × Dict)

/-- Apply one operation. -/
def busStep (beh : Beh) (r : RunResult) : BusOp → RunResult
  | .pub t msg ts =>
      let n := (r.bus.topics t).length
      let p := publish beh r.bus t msg ts
      { bus := p.bus, events := r.events ++ p.events,
        plog := r.plog ++ [(t, n, enrich t msg ts n)] }
  | .sub t c => { r with bus := subscribe r.bus t c }

/-- Run a list of operations from an accumulated result. -/
def runOps (beh : Beh) (r : RunResult) (ops : List BusOp) : RunResult :=
  ops.foldl (busStep beh) r

/-- Run a list of operations from a starting bus. -/
def busRun (beh : Beh) (s : Bus) (ops : List BusOp) : RunResult :=
  runOps beh { bus := s, events := [], plog := [] } ops

/-- The publishes to one topic in a publish log: sequence number stamped at
publish time, together with the enriched message. -/
def pubsTo (topic : String) (plog : List (String × ℕ × Dict)) :
    List (ℕ × Dict) :=
  (plog.filter fun p => p.1 == topic).map (·.2)

/-- Expected sequence numbers of the first `n` publishes to one topic:
`min k 1000` for the `k`-th publish (the buffer length saturates at the
`maxlen` bound). -/
def idsSpec (n : ℕ) : List ℕ := (List.range n).map fun k => min k busBound

/-! ## BaseAgent (base_agent.py) -/

/-- The mutable state of a `BaseAgent`. -/
structure Agent where
  agent_id : String
  agent_type : String
  specialization : String
  is_active : Bool
  patients_assigned : List String
  last_decision_time : Option String
  decision_count : ℕ
  response_times : List ℚ
  confidence_scores : List ℚ
  deriving DecidableEq, Repr

/-- `BaseAgent.__init__`. -/
def mkAgent (id ty sp : String) : Agent :=
  { agent_id := id, agent_type := ty, specialization := sp
    is_active := false, patients_assigned := []
    last_decision_time := none, decision_count := 0
    response_times := [], confidence_scores := [] }

/-- A subclass `process_patient_data` implementation: given the agent
state, a patient id and the data, it either returns the mutated agent
together with the partial decision dict, or raises. -/
abbrev Process := Agent → String → Dict → Except String (Agent × Dict)

/-- Result of one `make_decision` call: the agent state afterwards, the
returned dict, and the `(topic, payload)` pairs published. -/
structure DecisionResult where
  agent : Agent
  result : Dict
  pubs : List (String × Dict)

/-- `BaseAgent.make_decision`: run `process_patient_data`; on success add
the metadata fields, record the response time, increment `decision_count`,
publish the decision to `agent_decisions` and return it; on an exception
from `process`, catch it and return an error-shaped dict, publishing
nothing.  `ts`, `uid` and `rt` stand for `datetime.now().isoformat()`,
`uuid.uuid4()` and the measured elapsed time. -/
def make_decision (process : Process) (a : Agent) (pid : String)
    (ctx : Dict) (ts uid : String) (rt : ℚ) : DecisionResult :=
  match process a pid ctx with
  | .ok (a1, dec) =>
      let dec1 := dictUpdate dec
        [("agent_id", .str a.agent_id), ("agent_type", .str a.agent_type),
         ("timestamp", .str ts), ("decision_id", .str uid)]
      let a2 := { a1 with
        response_times := a1.response_times ++ [rt]
        decision_count := a1.decision_count + 1
        last_decision_time := some ts }
      { agent := a2, result := dec1, pubs := [("agent_decisions", dec1)] }
  | .error e =>
      { agent := a
        result := [("error", .str e), ("agent_id", .str a.agent_id),
                   ("patient_id", .str pid), ("timestamp", .str ts)]
        pubs := [] }

/-- `BaseAgent.initialize`: sets `is_active = True` and then runs the
subclass's `_setup_subscriptions`, whose outcome (`none`, or `some e` for a
raised exception, which propagates to the caller) is a parameter.  The
returned agent state is what the caller observes in either case. -/
def agentInitialize (a : Agent) (setupOutcome : Option String) :
    Agent × Option String :=
  let a1 := { a with is_active := true }
  (a1, setupOutcome)

/-- `BaseAgent.shutdown`. -/
def agentShutdown (a : Agent) : Agent := { a with is_active := false }

/-! ## Clinical agents (clinical_agents.py) -/

/-- `PhysicianAgent.process_patient_data`: compose the prompt, call the
engine, wrap its output as a low-urgency clinical assessment, and append
the engine's confidence to the agent's `confidence_scores`.  Never
raises. -/
def physicianProcess : Process := fun a pid data =>
  let prompt := "Clinical Assessment for Patient " ++ pid ++ ": " ++ pyReprDict data
  let llm := generate_response prompt
  let decision : Dict :=
    [("patient_id", .str pid),
     ("recommendation_type", .str "clinical_assessment"),
     ("assessment", .str llm.recommendation),
     ("confidence_score", .num llm.confidence),
     ("reasoning", .str llm.reasoning),
     ("urgency", .str "low")]
  .ok ({ a with confidence_scores := a.confidence_scores ++ [llm.confidence] },
       decision)

/-- `NurseAgent.process_patient_data`.  Never raises. -/
def nurseProcess : Process := fun a pid data =>
  let prompt := "Nursing Assessment for Patient " ++ pid ++ ": " ++ pyReprDict data
  let llm := generate_response prompt
  let decision : Dict :=
    [("patient_id", .str pid),
     ("recommendation_type", .str "nursing_care_plan"),
     ("care_plan", .str llm.recommendation),
     ("confidence_score", .num llm.confidence),
     ("reasoning", .str llm.reasoning)]
  .ok ({ a with confidence_scores := a.confidence_scores ++ [llm.confidence] },
       decision)

/-- `PharmacistAgent.process_patient_data`.  Never raises. -/
def pharmacistProcess : Process := fun a pid data =>
  let prompt := "Pharmaceutical Care Review for Patient " ++ pid ++ ": " ++ pyReprDict data
  let llm := generate_response prompt
  let decision : Dict :=
    [("patient_id", .str pid),
     ("recommendation_type", .str "pharmaceutical_care"),
     ("recommendations", .str llm.recommendation),
     ("confidence_score", .num llm.confidence),
     ("reasoning", .str llm.reasoning)]
  .ok ({ a with confidence_scores := a.confidence_scores ++ [llm.confidence] },
       decision)

/-- The `critical_thresholds` table of `PhysicianAgent._handle_vitals`:
`(parameter, low, high)`. -/
def critical_thresholds : List (String × ℚ × ℚ) :=
  [("heart_rate", 50, 120), ("systolic_bp", 90, 180), ("spo2", 92, 100)]

/-- `parameter in critical_thresholds` plus the `[low, high]` lookup. -/
def thresholdFor (p : String) : Option (ℚ × ℚ) :=
  (critical_thresholds.find? fun kv => kv.1 == p).map (·.2)

/-- `PhysicianAgent._make_urgent_decision`: compose the urgent prompt, call
the engine, build the urgent decision dict (with `trigger` and
`urgency = "high"`), and hand it to `make_decision` as the `context`
argument.  Returns the agent state and the publishes performed. -/
def physicianMakeUrgentDecision (a : Agent) (pid : String) (ctx : Dict)
    (ts uid : String) (rt : ℚ) : Agent × List (String × Dict) :=
  let prompt := "URGENT: Patient " ++ pid ++ " - " ++ pyStrGet ctx "trigger"
    ++ " - Provide immediate recommendations"
  let llm := generate_response prompt
  let decision : Dict :=
    [("patient_id", .str pid),
     ("recommendation_type", .str "urgent_clinical_decision"),
     ("trigger", (dget ctx "trigger").getD .none_),
     ("recommendation", .str llm.recommendation),
     ("confidence_score", .num llm.confidence),
     ("reasoning", .str llm.reasoning),
     ("urgency", .str "high")]
  let r := make_decision physicianProcess a pid decision ts uid rt
  (r.agent, r.pubs)

/-- `PhysicianAgent._handle_vitals` on one (enriched) vitals message.
A message whose `parameter` is in the threshold table but whose `value` is
not a number makes the Python comparison raise a `TypeError`, which
propagates out of the callback; every other malformed shape falls through
the membership tests and is dropped. -/
def physicianHandleVitals (a : Agent) (message : Dict) (ts uid : String)
    (rt : ℚ) : Except String (Agent × List (String × Dict)) :=
  match dget message "patient_id" with
  | some (.str pid) =>
      if pid ∈ a.patients_assigned then
        match dget message "parameter" with
        | some (.str p) =>
            match thresholdFor p with
            | some (lo, hi) =>
                match dget message "value" with
                | some (.num v) =>
                    if v < lo ∨ v > hi then
                      .ok (physicianMakeUrgentDecision a pid
                        [("trigger", .str "critical_vital"),
                         ("parameter", .str p), ("value", .num v)] ts uid rt)
                    else .ok (a, [])
                | _ => .error "TypeError: comparison with non-number"
            | none => .ok (a, [])
        | _ => .ok (a, [])
      else .ok (a, [])
  | _ => .ok (a, [])

/-- `NurseAgent._recommend_nursing_intervention`: build the fixed
0.90-confidence intervention dict and hand it to `make_decision` as
`context`.  (The source indexes `intervention["intervention"]` and
`intervention["details"]`, both always present at the call site.) -/
def nurseRecommendIntervention (a : Agent) (pid : String)
    (intervention : Dict) (ts uid : String) (rt : ℚ) :
    Agent × List (String × Dict) :=
  let decision : Dict :=
    [("patient_id", .str pid),
     ("recommendation_type", .str "nursing_intervention"),
     ("intervention", (dget intervention "intervention").getD .none_),
     ("details", (dget intervention "details").getD .none_),
     ("confidence_score", .num (mkRat 90 100)),
     ("reasoning", .str "Standard nursing protocol")]
  let r := make_decision nurseProcess a pid decision ts uid rt
  (r.agent, r.pubs)

/-- `NurseAgent._handle_vitals_monitoring` on one vitals message.  The
`parameter == "temperature" and value > 38.0` conjunction short-circuits,
so only a temperature message with a non-numeric `value` raises. -/
def nurseHandleVitalsMonitoring (a : Agent) (message : Dict)
    (ts uid : String) (rt : ℚ) :
    Except String (Agent × List (String × Dict)) :=
  match dget message "patient_id" with
  | some (.str pid) =>
      if pid ∈ a.patients_assigned then
        match dget message "parameter" with
        | some (.str p) =>
            if p = "temperature" then
              match dget message "value" with
              | some (.num v) =>
                  if v > 38 then
                    .ok (nurseRecommendIntervention a pid
                      [("intervention", .str "fever_management"),
                       ("details", .str "Administer antipyretic, cooling measures")]
                      ts uid rt)
                  else .ok (a, [])
              | _ => .error "TypeError: comparison with non-number"
            else .ok (a, [])
        | _ => .ok (a, [])
      else .ok (a, [])
  | _ => .ok (a, [])

/-! ## WorkflowCoordinator (workflow_coordinator.py)

`start_simulation` is modelled up to its first suspension point (the guard,
the flag flip and the two `create_task` calls — everything that happens
synchronously before `await asyncio.sleep`). -/

/-- An `asyncio.Task` handle as the coordinator observes it. -/
structure TaskH where
  done : Bool
  cancelled : Bool
  deriving DecidableEq, Repr

/-- The coordinator state touched by the lifecycle operations:
the running flag, the spawned task handles, the agent registry, the
`is_running` flags of the ICU unit's devices, and how many times the final
report has been written. -/
structure Coordinator where
  is_running : Bool
  tasks : List TaskH
  agents : List Agent
  devicesRunning : List Bool
  finalReports : ℕ
  deriving DecidableEq, Repr

/-- `WorkflowCoordinator.start_simulation`, synchronous prefix: guarded by
the running flag; when clear, sets it and spawns the device-simulation task
and the periodic-monitoring task. -/
def startSimulation (c : Coordinator) : Coordinator :=
  if c.is_running then c
  else { c with
    is_running := true
    tasks := c.tasks ++ [⟨false, false⟩, ⟨false, false⟩] }

/-- `WorkflowCoordinator.stop_simulation`: unconditionally clears the
running flag, stops every device, cancels every not-yet-done task, shuts
down every agent, and writes the final report. -/
def stopSimulation (c : Coordinator) : Coordinator :=
  { is_running := false
    tasks := c.tasks.map fun t => if t.done then t else { t with cancelled := true }
    agents := c.agents.map agentShutdown
    devicesRunning := c.devicesRunning.map fun _ => false
    finalReports := c.finalReports + 1 }

/-! ## Sequences of `make_decision` calls (for the decision-count
invariant) -/

/-- One `make_decision` call: the process implementation dispatched to and
the call's arguments. -/
structure GenCall where
  process : Process
  pid : String
  ctx : Dict
  ts : String
  uid : String
  rt : ℚ

/-- Whether this call's `process_patient_data` succeeds on agent state
`a`. -/
def callOk (call : GenCall) (a : Agent) : Bool :=
  match call.process a call.pid call.ctx with
  | .ok _ => true
  | .error _ => false

/-- Run a sequence of `make_decision` calls, returning the final agent
state and the number of calls whose `process` succeeded. -/
def runCalls (a : Agent) : List GenCall → Agent × ℕ
  | [] => (a, 0)
  | call :: rest =>
      let a1 := (make_decision call.process a call.pid call.ctx call.ts call.uid call.rt).agent
      let r := runCalls a1 rest
      (r.1, (if callOk call a then 1 else 0) + r.2)

/-- The contract every subclass `process_patient_data` in this codebase
obeys: on success it leaves `decision_count` alone and appends exactly one
confidence score. -/
def ProcessContract (P : Process) : Prop :=
  ∀ a pid ctx a1 dec, P a pid ctx = .ok (a1, dec) →
    a1.decision_count = a.decision_count ∧
    a1.confidence_scores.length = a.confidence_scores.length + 1

/-! ## Observation helpers and concrete fixtures -/

/-- The deliveries of one callback on one topic, in order: the message
arguments of the invocations of `c` for topic `t`. -/
def eventsFor (c : ℕ) (t : String) (events : List (ℕ × String × Dict)) :
    List Dict :=
  (events.filter fun e => e.1 == c && e.2.1 == t).map (·.2.2)

/-- The enriched messages published to one topic, in publish order. -/
def msgsTo (t : String) (plog : List (String × ℕ × Dict)) : List Dict :=
  (pubsTo t plog).map (·.2)

/-- How many of the operations are publishes to topic `t`. -/
def countPubsTo (t : String) (ops : List BusOp) : ℕ :=
  ops.countP fun op => match op with
    | .pub t' _ _ => t' == t
    | .sub _ _ => false

/-- The last `busBound` elements of a list (what survives eviction). -/
def keepLast (l : List Dict) : List Dict := l.drop (l.length - busBound)

/-- The publishes performed by a handler invocation (empty when the
handler raised: a raising callback publishes nothing further). -/
def pubsOfE (r : Except String (Agent × List (String × Dict))) :
    List (String × Dict) :=
  match r with
  | .ok (_, ps) => ps
  | .error _ => []

/-- A behaviour oracle under which no callback raises. -/
def behOk : Beh := fun _ _ => .ok ()

/-- A physician agent with patient `P1` assigned. -/
def physA0 : Agent :=
  { mkAgent "PHYSICIAN_001" "physician" "critical_care" with
    is_active := true, patients_assigned := ["P1"] }

/-- A nurse agent with patient `P1` assigned. -/
def nurseA0 : Agent :=
  { mkAgent "NURSE_001" "nurse" "icu_nursing" with
    is_active := true, patients_assigned := ["P1"] }

/-- A concrete vitals message as the device simulation publishes them. -/
def vitalsMsg (pid param : String) (v : ℚ) : Dict :=
  [("patient_id", .str pid), ("device_id", .str (pid ++ "_MONITOR")),
   ("parameter", .str param), ("value", .num v),
   ("unit", .str "bpm"), ("quality_score", .num (mkRat 95 100))]

/-- A coordinator that is not running, with one active agent, one running
device and no report written yet. -/
def coordIdle : Coordinator :=
  { is_running := false, tasks := [], agents := [nurseA0]
    devicesRunning := [true], finalReports := 0 }

/-- A coordinator that is currently running. -/
def coordRunning : Coordinator :=
  { is_running := true, tasks := [⟨false, false⟩], agents := [nurseA0]
    devicesRunning := [true], finalReports := 0 }

/-- 1002 successive publishes to the `vitals` topic. -/
def pub1002 : List BusOp :=
  List.replicate 1002 (.pub "vitals" [] "T")

/-- A bus holding exactly one `vitals` message. -/
def busOneMsg : Bus :=
  (busRun behOk emptyBus [.pub "vitals" [("patient_id", .str "P1")] "T"]).bus

/-- A single `make_decision` call through the physician's process. -/
def physCall : GenCall :=
  { process := physicianProcess, pid := "P1", ctx := [], ts := "T"
    uid := "U", rt := 0 }

/-- The buffer/sequence-id invariant every reachable bus satisfies: each
topic's buffer holds the last `busBound` messages published to it, and the
stamped sequence ids follow the saturating `min k 1000` law. -/
def BusInv (bus : Bus) (plog : List (String × ℕ × Dict)) : Prop := ∀ t,
  bus.topics t = keepLast (msgsTo t plog) ∧
  (pubsTo t plog).map (·.1) = idsSpec (pubsTo t plog).length

/-! # Theorems -/

/-- C6 counterexample: the claim "if `_setup_subscriptions` raises, the
agent is not left in an Active state (`is_active` remains false)" is false
at a concrete input.  A freshly constructed agent (with `is_active =
false`) whose subscription setup raises comes out of `initialize` with
`is_active = true`, because `initialize` sets the flag before running
`_setup_subscriptions`. -/
theorem initialize_failed_setup_leaves_active :
    (mkAgent "PHYSICIAN_001" "physician" "critical_care").is_active = false ∧
    (agentInitialize (mkAgent "PHYSICIAN_001" "physician" "critical_care")
      (some "subscription setup failed")).1.is_active = true ∧
    (agentInitialize (mkAgent "PHYSICIAN_001" "physician" "critical_care")
      (some "subscription setup failed")).2 = some "subscription setup failed" := by
  exact ⟨rfl, rfl, rfl⟩

/-- C6 amended: `initialize` sets `is_active := true` unconditionally,
before `_setup_subscriptions` runs; if subscription setup raises, the
exception propagates to the caller, but the agent is nevertheless left
Active — a partial-Active state does exist after a failed
initialization. -/
theorem initialize_sets_active_before_setup :
    ∀ (a : Agent) (o : Option String),
      (agentInitialize a o).1.is_active = true ∧ (agentInitialize a o).2 = o := by
  intro a o
  exact ⟨rfl, rfl⟩

/-- C7 counterexample: the claim "calling `stop_simulation` while the
running flag is clear is a no-op (no task cancellation, no agent shutdown,
no final report written)" is false at a concrete input: on a coordinator
with the running flag clear, one active agent, one running device and no
report written, `stop_simulation` still shuts the agent down, stops the
device, and writes a final report. -/
theorem stop_simulation_not_guarded :
    coordIdle.is_running = false ∧
    coordIdle.agents.map (·.is_active) = [true] ∧
    coordIdle.finalReports = 0 ∧
    (stopSimulation coordIdle).agents.map (·.is_active) = [false] ∧
    (stopSimulation coordIdle).devicesRunning = [false] ∧
    (stopSimulation coordIdle).finalReports = 1 := by
  exact ⟨rfl, rfl, rfl, rfl, rfl, rfl⟩

/-- C7 amended: `start_simulation` is guarded by the running flag (calling
it while the flag is set leaves the coordinator unchanged: flag, task set
and everything else), but `stop_simulation` has no such guard: invoked in
any state — running or not — it clears the flag, cancels every
not-yet-done task, stops every device, shuts down every agent, and writes
another final report. -/
theorem lifecycle_guard_asymmetry :
    (∀ c : Coordinator, c.is_running = true → startSimulation c = c) ∧
    (∀ c : Coordinator,
      (stopSimulation c).is_running = false ∧
      (stopSimulation c).agents = c.agents.map agentShutdown ∧
      (stopSimulation c).devicesRunning = c.devicesRunning.map (fun _ => false) ∧
      (stopSimulation c).tasks =
        c.tasks.map (fun t => if t.done then t else { t with cancelled := true }) ∧
      (stopSimulation c).finalReports = c.finalReports + 1) := by
  constructor
  · intro c h
    simp [startSimulation, h]
  · intro c
    exact ⟨rfl, rfl, rfl, rfl, rfl⟩

/-- Witness for the C7 theorem at a concrete running coordinator. -/
theorem lifecycle_guard_asymmetry_witness :
    startSimulation coordRunning = coordRunning :=
  lifecycle_guard_asymmetry.1 coordRunning rfl

/-- Helper: the mock decision engine never returns confidence 0.90 (its
four canned branches return 0.85, 0.78, 0.82 and 0.75). -/
theorem generate_response_confidence_ne (prompt : String) :
    (generate_response prompt).confidence ≠ mkRat 90 100 := by
  unfold generate_response
  split_ifs <;> decide

/-- Helper: fields of the decision dict that `make_decision` builds when
dispatching to `NurseAgent.process_patient_data`: it is a
`nursing_care_plan` without an `intervention` field, whose confidence is
whatever the decision engine returned for the composed prompt. -/
theorem make_decision_nurse_fields (a : Agent) (pid : String) (ctx : Dict)
    (ts uid : String) (rt : ℚ) :
    dget (make_decision nurseProcess a pid ctx ts uid rt).result "recommendation_type"
        = some (.str "nursing_care_plan") ∧
    dget (make_decision nurseProcess a pid ctx ts uid rt).result "intervention" = none ∧
    dget (make_decision nurseProcess a pid ctx ts uid rt).result "confidence_score"
        = some (.num (generate_response
            ("Nursing Assessment for Patient " ++ pid ++ ": " ++ pyReprDict ctx)).confidence) := by
  refine ⟨?_, ?_, ?_⟩ <;>
    simp [make_decision, nurseProcess, dget, dictUpdate, dictSet, List.find?]

/-- C1 counterexample: the claim "that published decision is urgent and
carries `trigger = \"critical_vital\"`" is false at a concrete input.  A
heart-rate reading of 40 for assigned subject `P1` makes the physician's
vitals handler publish exactly one decision to `agent_decisions`, but that
decision has no `trigger` field at all and has `urgency = "low"`: the
urgent dict built by `_make_urgent_decision` is passed to `make_decision`
as mere context and `process_patient_data` rebuilds the published decision
from scratch. -/
theorem physician_hr40_decision_lacks_critical_vital_tag :
    (pubsOfE (physicianHandleVitals physA0 (vitalsMsg "P1" "heart_rate" 40) "T" "U" 0)).map (·.1)
        = ["agent_decisions"] ∧
    dget ((pubsOfE (physicianHandleVitals physA0 (vitalsMsg "P1" "heart_rate" 40) "T" "U" 0)).headI.2)
        "trigger" = none ∧
    dget ((pubsOfE (physicianHandleVitals physA0 (vitalsMsg "P1" "heart_rate" 40) "T" "U" 0)).headI.2)
        "trigger" ≠ some (.str "critical_vital") ∧
    dget ((pubsOfE (physicianHandleVitals physA0 (vitalsMsg "P1" "heart_rate" 40) "T" "U" 0)).headI.2)
        "urgency" = some (.str "low") := by
  decide

/-- C1 amended: for every vitals message whose `patient_id` is assigned to
the physician agent and whose `parameter` is in the threshold table with
`value` strictly outside `[low, high]`, exactly one decision is published
to `agent_decisions`; but that decision is a low-urgency
`clinical_assessment` carrying no `trigger` field (the `trigger =
"critical_vital"` / `urgency = "high"` dict that `_make_urgent_decision`
builds is discarded by `process_patient_data`).  A reading inside the band
(such as heart rate 80) publishes nothing. -/
theorem physician_out_of_range_vital_publishes_low_urgency_assessment
    (a : Agent) (message : Dict) (pid p : String) (lo hi v : ℚ)
    (ts uid : String) (rt : ℚ)
    (hpid : dget message "patient_id" = some (.str pid))
    (hmem : pid ∈ a.patients_assigned)
    (hparam : dget message "parameter" = some (.str p))
    (hthr : thresholdFor p = some (lo, hi))
    (hval : dget message "value" = some (.num v)) :
    ((v < lo ∨ v > hi) →
      ∃ a' d, physicianHandleVitals a message ts uid rt =
          .ok (a', [("agent_decisions", d)]) ∧
        dget d "trigger" = none ∧
        dget d "urgency" = some (.str "low") ∧
        dget d "recommendation_type" = some (.str "clinical_assessment")) ∧
    (lo ≤ v → v ≤ hi →
      physicianHandleVitals a message ts uid rt = .ok (a, [])) := by
  constructor
  · intro hout
    simp only [physicianHandleVitals, hpid, hparam, hthr, hval,
      if_pos hmem, if_pos hout]
    refine ⟨_, _, rfl, ?_, ?_, ?_⟩ <;>
      simp [physicianMakeUrgentDecision, make_decision, physicianProcess,
        dictUpdate, dictSet, dget, List.find?]
  · intro h1 h2
    have hno : ¬ (v < lo ∨ v > hi) := not_or.mpr ⟨not_lt.mpr h1, not_lt.mpr h2⟩
    simp only [physicianHandleVitals, hpid, hparam, hthr, hval,
      if_pos hmem, if_neg hno]

/-- Witness for the C1 theorem: heart rate 160 (above the 120 bound)
publishes exactly one low-urgency assessment, heart rate 80 publishes
nothing. -/
theorem physician_out_of_range_vital_witness :
    (∃ a' d, physicianHandleVitals physA0 (vitalsMsg "P1" "heart_rate" 160) "T" "U" 0 =
        .ok (a', [("agent_decisions", d)]) ∧
      dget d "trigger" = none ∧
      dget d "urgency" = some (.str "low") ∧
      dget d "recommendation_type" = some (.str "clinical_assessment")) ∧
    physicianHandleVitals physA0 (vitalsMsg "P1" "heart_rate" 80) "T" "U" 0 =
      .ok (physA0, []) := by
  constructor
  · exact (physician_out_of_range_vital_publishes_low_urgency_assessment
      physA0 _ "P1" "heart_rate" 50 120 160 "T" "U" 0
      (by decide) (by decide) (by decide) (by decide) (by decide)).1
      (Or.inr (by norm_num))
  · exact (physician_out_of_range_vital_publishes_low_urgency_assessment
      physA0 _ "P1" "heart_rate" 50 120 80 "T" "U" 0
      (by decide) (by decide) (by decide) (by decide) (by decide)).2
      (by norm_num) (by norm_num)

/-- C9 counterexample: the claim "a value of 38.5 causes the Nurse agent to
publish exactly one intervention decision whose confidence is 0.90,
produced without invoking the Decision Engine" is false at a concrete
input: temperature 38.5 for assigned subject `P1` publishes exactly one
decision, but it is a `nursing_care_plan` (not the intervention dict) whose
confidence is the decision engine's 0.75, not 0.90. -/
theorem nurse_temp385_confidence_not_090 :
    (pubsOfE (nurseHandleVitalsMonitoring nurseA0 (vitalsMsg "P1" "temperature" (mkRat 77 2)) "T" "U" 0)).map (·.1)
        = ["agent_decisions"] ∧
    dget ((pubsOfE (nurseHandleVitalsMonitoring nurseA0 (vitalsMsg "P1" "temperature" (mkRat 77 2)) "T" "U" 0)).headI.2)
        "confidence_score" = some (.num (mkRat 75 100)) ∧
    dget ((pubsOfE (nurseHandleVitalsMonitoring nurseA0 (vitalsMsg "P1" "temperature" (mkRat 77 2)) "T" "U" 0)).headI.2)
        "confidence_score" ≠ some (.num (mkRat 90 100)) ∧
    dget ((pubsOfE (nurseHandleVitalsMonitoring nurseA0 (vitalsMsg "P1" "temperature" (mkRat 77 2)) "T" "U" 0)).headI.2)
        "recommendation_type" = some (.str "nursing_care_plan") := by
  decide

/-- C9 amended: a temperature strictly above 38.0 for an assigned subject
makes the nurse agent publish exactly one decision, but it is a
`nursing_care_plan` (the `nursing_intervention`/0.90 dict built by
`_recommend_nursing_intervention` is discarded), its confidence comes from
the decision engine, which `make_decision` does invoke, and that
confidence is never 0.90; a temperature of 38.0 or below publishes
nothing. -/
theorem nurse_high_temperature_publishes_care_plan
    (a : Agent) (message : Dict) (pid : String) (v : ℚ)
    (ts uid : String) (rt : ℚ)
    (hpid : dget message "patient_id" = some (.str pid))
    (hmem : pid ∈ a.patients_assigned)
    (hparam : dget message "parameter" = some (.str "temperature"))
    (hval : dget message "value" = some (.num v)) :
    (v > 38 →
      ∃ a' ps, nurseHandleVitalsMonitoring a message ts uid rt = .ok (a', ps) ∧
        ps.map (·.1) = ["agent_decisions"] ∧
        dget ps.headI.2 "recommendation_type" = some (.str "nursing_care_plan") ∧
        dget ps.headI.2 "intervention" = none ∧
        ∃ c, dget ps.headI.2 "confidence_score" = some (.num c) ∧ c ≠ mkRat 90 100) ∧
    (v ≤ 38 → nurseHandleVitalsMonitoring a message ts uid rt = .ok (a, [])) := by
  constructor
  · intro hout
    simp only [nurseHandleVitalsMonitoring, hpid, hparam, hval,
      if_pos hmem, if_pos rfl, if_true, if_pos hout]
    refine ⟨_, _, rfl, rfl, ?_, ?_, ?_⟩
    · exact (make_decision_nurse_fields a pid _ ts uid rt).1
    · exact (make_decision_nurse_fields a pid _ ts uid rt).2.1
    · exact ⟨_, (make_decision_nurse_fields a pid _ ts uid rt).2.2,
        generate_response_confidence_ne _⟩
  · intro h1
    simp only [nurseHandleVitalsMonitoring, hpid, hparam, hval,
      if_pos hmem, if_pos rfl, if_true, if_neg (not_lt.mpr h1)]

/-- Witness for the C9 theorem: temperature 39 publishes one care plan
with a non-0.90 confidence, temperature 37 publishes nothing. -/
theorem nurse_high_temperature_witness :
    (∃ a' ps, nurseHandleVitalsMonitoring nurseA0 (vitalsMsg "P1" "temperature" 39) "T" "U" 0 =
        .ok (a', ps) ∧
      ps.map (·.1) = ["agent_decisions"] ∧
      dget ps.headI.2 "recommendation_type" = some (.str "nursing_care_plan") ∧
      dget ps.headI.2 "intervention" = none ∧
      ∃ c, dget ps.headI.2 "confidence_score" = some (.num c) ∧ c ≠ mkRat 90 100) ∧
    nurseHandleVitalsMonitoring nurseA0 (vitalsMsg "P1" "temperature" 37) "T" "U" 0 =
      .ok (nurseA0, []) := by
  constructor
  · exact (nurse_high_temperature_publishes_care_plan
      nurseA0 _ "P1" 39 "T" "U" 0 (by decide) (by decide) (by decide) (by decide)).1
      (by norm_num)
  · exact (nurse_high_temperature_publishes_care_plan
      nurseA0 _ "P1" 37 "T" "U" 0 (by decide) (by decide) (by decide) (by decide)).2
      (by norm_num)

/-- Helper: closed form of the subscriber-notification fold — every
subscriber is invoked exactly once, in list order, with the same message,
and the error log collects exactly the raising callbacks' messages. -/
theorem dispatch_spec (beh : Beh) (topic : String) (m : Dict) (subs : List ℕ) :
    dispatch beh topic m subs =
      (subs.map fun c => (c, topic, m),
       subs.filterMap fun c =>
         match beh c m with
         | .ok _ => none
         | .error e => some ("Error in subscriber callback: " ++ e)) := by
  have aux : ∀ (l : List ℕ) (acc : List (ℕ × String × Dict) × List String),
      l.foldl (fun acc c =>
        match beh c m with
        | .ok _ => (acc.1 ++ [(c, topic, m)], acc.2)
        | .error e =>
            (acc.1 ++ [(c, topic, m)],
             acc.2 ++ ["Error in subscriber callback: " ++ e])) acc =
      (acc.1 ++ l.map (fun c => (c, topic, m)),
       acc.2 ++ l.filterMap fun c =>
         match beh c m with
         | .ok _ => none
         | .error e => some ("Error in subscriber callback: " ++ e)) := by
    intro l
    induction l with
    | nil => intro acc; simp
    | cons c l ih =>
        intro acc
        rw [List.foldl_cons]
        cases hbc : beh c m with
        | ok u => rw [ih]; simp [hbc]
        | error e => rw [ih]; simp [hbc]
  rw [dispatch, aux]
  simp

/-- Helper: what one `publish` call observably does: invocations, error
log, and the returned boolean. -/
theorem publish_spec (beh : Beh) (s : Bus) (t : String) (b : Dict) (ts : String) :
    (publish beh s t b ts).events =
      (s.subscribers t).map (fun c => (c, t, enrich t b ts (s.topics t).length)) ∧
    (publish beh s t b ts).log =
      (s.subscribers t).filterMap (fun c =>
        match beh c (enrich t b ts (s.topics t).length) with
        | .ok _ => none
        | .error e => some ("Error in subscriber callback: " ++ e)) ∧
    (publish beh s t b ts).ok = true := by
  refine ⟨?_, ?_, rfl⟩ <;> simp [publish, dispatch_spec]

/-- C4: for every publish on a topic, whatever the callbacks' behaviour
(`beh` may make any of them raise), every currently registered subscriber
is invoked exactly once, in subscription-list order, with the same enriched
message; each raising callback contributes one caught-and-logged error and
does not prevent later callbacks from running; and `publish` still returns
`true` — in this model the enrichment and append steps are total, so the
only `return False` path of the source (a failure while building or
appending the message) is never taken. -/
theorem publish_callback_errors_isolated
    (beh : Beh) (s : Bus) (t : String) (b : Dict) (ts : String) :
    (publish beh s t b ts).events =
      (s.subscribers t).map (fun c => (c, t, enrich t b ts (s.topics t).length)) ∧
    (publish beh s t b ts).log =
      (s.subscribers t).filterMap (fun c =>
        match beh c (enrich t b ts (s.topics t).length) with
        | .ok _ => none
        | .error e => some ("Error in subscriber callback: " ++ e)) ∧
    (publish beh s t b ts).ok = true :=
  publish_spec beh s t b ts

/-- C10: `subscribe` never deduplicates.  Subscribing the same callback
twice to a topic (to which it was not yet subscribed) leaves it twice in
the subscriber list, and a subsequent publish to that topic invokes it
exactly twice with the same message. -/
theorem subscribe_no_dedup_double_delivery
    (s : Bus) (t : String) (c : ℕ) (beh : Beh) (b : Dict) (ts : String)
    (h : c ∉ s.subscribers t) :
    ((subscribe (subscribe s t c) t c).subscribers t = s.subscribers t ++ [c, c]) ∧
    (((subscribe (subscribe s t c) t c).subscribers t).count c = 2) ∧
    ((publish beh (subscribe (subscribe s t c) t c) t b ts).events.filter
        (fun e => e.1 == c) =
      [(c, t, enrich t b ts (s.topics t).length),
       (c, t, enrich t b ts (s.topics t).length)]) := by
  have hsub : (subscribe (subscribe s t c) t c).subscribers t
      = s.subscribers t ++ [c, c] := by
    simp [subscribe]
  refine ⟨hsub, ?_, ?_⟩
  · rw [hsub]
    simp [List.count_append, List.count_eq_zero_of_not_mem h, List.count_cons]
  · have he := (publish_spec beh (subscribe (subscribe s t c) t c) t b ts).1
    rw [he]
    have htop : (subscribe (subscribe s t c) t c).topics t = s.topics t := rfl
    rw [htop, hsub, List.filter_map]
    have hf : (s.subscribers t ++ [c, c]).filter
        ((fun e => e.1 == c) ∘ (fun x => (x, t, enrich t b ts (s.topics t).length)))
        = [c, c] := by
      rw [List.filter_append]
      have h1 : (s.subscribers t).filter
          ((fun e => e.1 == c) ∘ (fun x => (x, t, enrich t b ts (s.topics t).length)))
          = [] := by
        rw [List.filter_eq_nil_iff]
        intro x hx
        simp only [Function.comp, beq_iff_eq]
        intro hxc
        exact h (hxc ▸ hx)
      rw [h1]
      simp [List.filter]
    rw [hf]
    simp

/-- Witness for the C10 theorem: a fresh bus, callback 7 subscribed twice
to `vitals`. -/
theorem subscribe_no_dedup_double_delivery_witness :
    ((subscribe (subscribe emptyBus "vitals" 7) "vitals" 7).subscribers "vitals"
        = emptyBus.subscribers "vitals" ++ [7, 7]) ∧
    (((subscribe (subscribe emptyBus "vitals" 7) "vitals" 7).subscribers "vitals").count 7 = 2) ∧
    ((publish behOk (subscribe (subscribe emptyBus "vitals" 7) "vitals" 7) "vitals" [] "T").events.filter
        (fun e => e.1 == 7) =
      [(7, "vitals", enrich "vitals" [] "T" (emptyBus.topics "vitals").length),
       (7, "vitals", enrich "vitals" [] "T" (emptyBus.topics "vitals").length)]) :=
  subscribe_no_dedup_double_delivery emptyBus "vitals" 7 behOk [] "T" (by decide)

/-- Helper: `PhysicianAgent.process_patient_data` obeys the subclass
contract: on success it leaves `decision_count` alone and appends exactly
one confidence score. -/
theorem physician_contract : ProcessContract physicianProcess := by
  intro a pid ctx a1 dec h
  simp only [physicianProcess, Except.ok.injEq, Prod.mk.injEq] at h
  obtain ⟨h1, h2⟩ := h
  subst h1
  simp

/-- Helper: `NurseAgent.process_patient_data` obeys the subclass
contract. -/
theorem nurse_contract : ProcessContract nurseProcess := by
  intro a pid ctx a1 dec h
  simp only [nurseProcess, Except.ok.injEq, Prod.mk.injEq] at h
  obtain ⟨h1, h2⟩ := h
  subst h1
  simp

/-- Helper: `PharmacistAgent.process_patient_data` obeys the subclass
contract. -/
theorem pharmacist_contract : ProcessContract pharmacistProcess := by
  intro a pid ctx a1 dec h
  simp only [pharmacistProcess, Except.ok.injEq, Prod.mk.injEq] at h
  obtain ⟨h1, h2⟩ := h
  subst h1
  simp

/-- C5: all three subclass `process_patient_data` implementations obey the
count contract; when `process` succeeds, `make_decision` increments
`decision_count` by exactly 1, `confidence_scores` gains exactly one entry,
and the resulting decision is published to `agent_decisions`; when
`process` raises, the exception is caught, an error-shaped dict carrying an
explicit `error` field is returned, nothing is published, and the agent
state (decision count, confidence scores) is unchanged; hence over any
sequence of `make_decision` calls through contract-obeying processes, the
confidence-score list grows by exactly the number of successful calls, as
does the decision count. -/
theorem make_decision_success_failure_accounting :
    ProcessContract physicianProcess ∧
    ProcessContract nurseProcess ∧
    ProcessContract pharmacistProcess ∧
    (∀ (P : Process) (a : Agent) (pid : String) (ctx : Dict) (ts uid : String)
        (rt : ℚ) (a1 : Agent) (dec : Dict),
      P a pid ctx = .ok (a1, dec) →
      a1.decision_count = a.decision_count →
      a1.confidence_scores.length = a.confidence_scores.length + 1 →
      (make_decision P a pid ctx ts uid rt).agent.decision_count = a.decision_count + 1 ∧
      (make_decision P a pid ctx ts uid rt).agent.confidence_scores.length
        = a.confidence_scores.length + 1 ∧
      (make_decision P a pid ctx ts uid rt).pubs
        = [("agent_decisions", (make_decision P a pid ctx ts uid rt).result)]) ∧
    (∀ (P : Process) (a : Agent) (pid : String) (ctx : Dict) (ts uid : String)
        (rt : ℚ) (e : String),
      P a pid ctx = .error e →
      (make_decision P a pid ctx ts uid rt).agent = a ∧
      (make_decision P a pid ctx ts uid rt).pubs = [] ∧
      dget (make_decision P a pid ctx ts uid rt).result "error" = some (.str e)) ∧
    (∀ (a : Agent) (calls : List GenCall),
      (∀ call ∈ calls, ProcessContract call.process) →
      (runCalls a calls).1.confidence_scores.length
        = a.confidence_scores.length + (runCalls a calls).2 ∧
      (runCalls a calls).1.decision_count = a.decision_count + (runCalls a calls).2) := by
  refine ⟨physician_contract, nurse_contract, pharmacist_contract, ?_, ?_, ?_⟩
  · intro P a pid ctx ts uid rt a1 dec h hc1 hc2
    refine ⟨?_, ?_, ?_⟩ <;>
      simp [make_decision, h, hc1, hc2]
  · intro P a pid ctx ts uid rt e h
    refine ⟨?_, ?_, ?_⟩ <;>
      simp [make_decision, h, dget]
  · intro a calls
    induction calls generalizing a with
    | nil => intro _; simp [runCalls]
    | cons call rest ih =>
        intro hc
        have hcall := hc call (List.mem_cons_self call rest)
        have hrest : ∀ c ∈ rest, ProcessContract c.process :=
          fun c hcmem => hc c (List.mem_cons_of_mem call hcmem)
        have hrun : runCalls a (call :: rest)
            = ((runCalls (make_decision call.process a call.pid call.ctx
                  call.ts call.uid call.rt).agent rest).1,
               (if callOk call a then 1 else 0)
                 + (runCalls (make_decision call.process a call.pid call.ctx
                     call.ts call.uid call.rt).agent rest).2) := rfl
        obtain ⟨ih1, ih2⟩ := ih (make_decision call.process a call.pid call.ctx
          call.ts call.uid call.rt).agent hrest
        rw [hrun]
        cases hp : call.process a call.pid call.ctx with
        | ok pr =>
            obtain ⟨a1, dec⟩ := pr
            obtain ⟨hd1, hd2⟩ := hcall a call.pid call.ctx a1 dec hp
            have hagent1 : (make_decision call.process a call.pid call.ctx
                call.ts call.uid call.rt).agent.confidence_scores.length
                = a.confidence_scores.length + 1 := by
              simp [make_decision, hp, hd2]
            have hagent2 : (make_decision call.process a call.pid call.ctx
                call.ts call.uid call.rt).agent.decision_count
                = a.decision_count + 1 := by
              simp [make_decision, hp, hd1]
            have hok : callOk call a = true := by simp [callOk, hp]
            rw [hok]
            constructor
            · simp only [if_true]
              rw [ih1, hagent1]
              omega
            · simp only [if_true]
              rw [ih2, hagent2]
              omega
        | error e =>
            have hagent : (make_decision call.process a call.pid call.ctx
                call.ts call.uid call.rt).agent = a := by
              simp [make_decision, hp]
            have hok : callOk call a = false := by simp [callOk, hp]
            constructor
            · simp only [hok, Bool.false_eq_true, if_false]
              rw [ih1, hagent]
              omega
            · simp only [hok, Bool.false_eq_true, if_false]
              rw [ih2, hagent]
              omega

/-- Witness for the C5 theorem: one physician `make_decision` call from a
fresh assigned agent — the confidence-score list and the decision count
both grow by the success count. -/
theorem make_decision_success_failure_accounting_witness :
    (runCalls physA0 [physCall]).1.confidence_scores.length
      = physA0.confidence_scores.length + (runCalls physA0 [physCall]).2 ∧
    (runCalls physA0 [physCall]).1.decision_count
      = physA0.decision_count + (runCalls physA0 [physCall]).2 :=
  make_decision_success_failure_accounting.2.2.2.2.2 physA0 [physCall]
    (by
      intro call hmem
      have hx : call = physCall := by simpa using hmem
      rw [hx]
      exact make_decision_success_failure_accounting.1)

/-- Helper: unfolding one step of a run. -/
theorem runOps_cons (beh : Beh) (r : RunResult) (op : BusOp) (ops : List BusOp) :
    runOps beh r (op :: ops) = runOps beh (busStep beh r op) ops := rfl

/-- Helper: a step's new bus depends only on the accumulated bus, and its
event/publish logs are appended to the accumulated ones. -/
theorem busStep_decomp (beh : Beh) (r : RunResult) (op : BusOp) :
    (busStep beh r op).bus = (busStep beh ⟨r.bus, [], []⟩ op).bus ∧
    (busStep beh r op).events = r.events ++ (busStep beh ⟨r.bus, [], []⟩ op).events ∧
    (busStep beh r op).plog = r.plog ++ (busStep beh ⟨r.bus, [], []⟩ op).plog := by
  cases op with
  | pub t b ts => exact ⟨rfl, by simp [busStep], by simp [busStep]⟩
  | sub t c => exact ⟨rfl, by simp [busStep], by simp [busStep]⟩

/-- Helper: the same decomposition for a whole run. -/
theorem runOps_decomp (beh : Beh) :
    ∀ (ops : List BusOp) (r : RunResult),
    (runOps beh r ops).bus = (runOps beh ⟨r.bus, [], []⟩ ops).bus ∧
    (runOps beh r ops).events
      = r.events ++ (runOps beh ⟨r.bus, [], []⟩ ops).events ∧
    (runOps beh r ops).plog
      = r.plog ++ (runOps beh ⟨r.bus, [], []⟩ ops).plog := by
  intro ops
  induction ops with
  | nil => intro r; simp [runOps]
  | cons op rest ih =>
      intro r
      rw [runOps_cons, runOps_cons]
      obtain ⟨hb, he, hp⟩ := busStep_decomp beh r op
      obtain ⟨ihb1, ihe1, ihp1⟩ := ih (busStep beh r op)
      obtain ⟨ihb2, ihe2, ihp2⟩ := ih (busStep beh ⟨r.bus, [], []⟩ op)
      have hbus2 : (busStep beh ⟨r.bus, [], []⟩ op).bus
          = (busStep beh r op).bus := hb.symm
      refine ⟨?_, ?_, ?_⟩
      · rw [ihb1, ihb2, hb]
      · rw [ihe1, ihe2, he, hbus2]
        simp
      · rw [ihp1, ihp2, hp, hbus2]
        simp

/-- Helper: how long the survivors of eviction are. -/
theorem keepLast_length (l : List Dict) :
    (keepLast l).length = min l.length busBound := by
  simp [keepLast]
  omega

/-- Helper: evicting after an append is appending to the evicted tail. -/
theorem keepLast_append_one (l : List Dict) (m : Dict) :
    keepLast (l ++ [m]) = pushBounded (keepLast l) m := by
  have hbb : busBound = 1000 := rfl
  rcases lt_or_le l.length busBound with h | h
  · have h0 : l.length - busBound = 0 := by omega
    have h1 : l.length + 1 - busBound = 0 := by omega
    simp [keepLast, pushBounded, h0, h1]
  · have hlen : (keepLast l).length = busBound := by
      rw [keepLast_length]; omega
    have hgt : busBound < (keepLast l ++ [m]).length := by
      rw [List.length_append, hlen]; simp
    have e1 : keepLast (l ++ [m]) = l.drop (l.length + 1 - busBound) ++ [m] := by
      simp only [keepLast, List.length_append, List.length_singleton]
      rw [List.drop_append_eq_append_drop]
      have hz : l.length + 1 - busBound - l.length = 0 := by omega
      rw [hz]
      rfl
    have e2 : pushBounded (keepLast l) m
        = l.drop (l.length - busBound + 1) ++ [m] := by
      simp only [pushBounded, if_pos hgt]
      rw [List.length_append, hlen, List.length_singleton]
      have hd : busBound + 1 - busBound = 1 := by omega
      rw [hd, List.drop_append_eq_append_drop]
      have hz : 1 - (keepLast l).length = 0 := by omega
      rw [hz]
      simp only [keepLast, List.drop_drop, List.drop_zero]
    rw [e1, e2]
    have harith : l.length + 1 - busBound = l.length - busBound + 1 := by omega
    rw [harith]

/-- Helper: the id law unfolds by one. -/
theorem idsSpec_succ (n : ℕ) :
    idsSpec (n + 1) = idsSpec n ++ [min n busBound] := by
  simp [idsSpec, List.range_succ]

/-- Helper: the fresh bus satisfies the buffer invariant. -/
theorem businv_empty : BusInv emptyBus [] := by
  intro t
  simp [emptyBus, keepLast, msgsTo, pubsTo, idsSpec]

/-- Helper: each step preserves the buffer invariant. -/
theorem businv_step (beh : Beh) (r : RunResult) (op : BusOp)
    (h : BusInv r.bus r.plog) :
    BusInv (busStep beh r op).bus (busStep beh r op).plog := by
  cases op with
  | sub t' c => exact h
  | pub t' b ts =>
      intro t
      obtain ⟨h1, h2⟩ := h t
      by_cases ht : t = t'
      · subst ht
        have hbuf : (busStep beh r (.pub t b ts)).bus.topics t
            = pushBounded (r.bus.topics t) (enrich t b ts (r.bus.topics t).length) := by
          simp [busStep, publish]
        have hplog : (busStep beh r (.pub t b ts)).plog
            = r.plog ++ [(t, (r.bus.topics t).length, enrich t b ts (r.bus.topics t).length)] := by
          simp [busStep]
        have hpubs : pubsTo t ((busStep beh r (.pub t b ts)).plog)
            = pubsTo t r.plog
              ++ [((r.bus.topics t).length, enrich t b ts (r.bus.topics t).length)] := by
          rw [hplog]
          simp [pubsTo]
        have hmsgs : msgsTo t ((busStep beh r (.pub t b ts)).plog)
            = msgsTo t r.plog ++ [enrich t b ts (r.bus.topics t).length] := by
          simp [msgsTo, hpubs]
        have hn : (r.bus.topics t).length = min (msgsTo t r.plog).length busBound := by
          rw [h1, keepLast_length]
        constructor
        · rw [hbuf, hmsgs, keepLast_append_one, h1]
        · rw [hpubs]
          simp only [List.map_append, List.length_append, List.map_cons, List.map_nil,
            List.length_cons, List.length_nil]
          rw [h2, idsSpec_succ]
          congr 1
          rw [hn]
          congr 1
          simp [msgsTo]
      · have hbuf : (busStep beh r (.pub t' b ts)).bus.topics t = r.bus.topics t := by
          simp [busStep, publish, ht]
        have hplog : pubsTo t ((busStep beh r (.pub t' b ts)).plog) = pubsTo t r.plog := by
          simp only [busStep, pubsTo, List.filter_append]
          have hone : (List.filter (fun p => p.1 == t)
              [(t', (r.bus.topics t').length, enrich t' b ts (r.bus.topics t').length)]) = [] := by
            simp
            intro hcon
            exact absurd hcon.symm ht
          rw [hone]
          simp [pubsTo]
        constructor
        · rw [hbuf, h1]
          simp [msgsTo, hplog]
        · simp [msgsTo, hplog, h2]

/-- Helper: the buffer invariant holds along any run. -/
theorem runOps_inv (beh : Beh) :
    ∀ (ops : List BusOp) (r : RunResult), BusInv r.bus r.plog →
    BusInv (runOps beh r ops).bus (runOps beh r ops).plog := by
  intro ops
  induction ops with
  | nil => intro r h; exact h
  | cons op rest ih =>
      intro r h
      rw [runOps_cons]
      exact ih _ (businv_step beh r op h)

/-- Helper: the buffer invariant for runs from a fresh bus. -/
theorem run_inv (beh : Beh) (ops : List BusOp) :
    BusInv (busRun beh emptyBus ops).bus (busRun beh emptyBus ops).plog :=
  runOps_inv beh ops _ businv_empty

/-- Helper: the saturating id law is monotone. -/
theorem idsSpec_pairwise_le (n : ℕ) : List.Pairwise (· ≤ ·) (idsSpec n) := by
  rw [idsSpec, List.pairwise_map]
  exact (List.pairwise_lt_range n).imp fun hab => by omega

/-- Helper: the saturating id law is strictly increasing on its first
`busBound + 1` entries. -/
theorem idsSpec_take_pairwise_lt (n : ℕ) :
    List.Pairwise (· < ·) ((idsSpec n).take (busBound + 1)) := by
  have hbb : busBound = 1000 := rfl
  rw [idsSpec, ← List.map_take, List.take_range, List.pairwise_map]
  refine (List.pairwise_lt_range _).imp_of_mem ?_
  intro a b ha hb hab
  rw [List.mem_range] at ha hb
  omega

/-- Helper: counting a repeated operation. -/
theorem countP_replicate {p : BusOp → Bool} (op : BusOp) (n : ℕ) :
    (List.replicate n op).countP p = if p op then n else 0 := by
  induction n with
  | zero => simp
  | succ k ih =>
      rw [List.replicate_succ, List.countP_cons, ih]
      by_cases h : p op <;> simp [h]

/-- Helper: the number of publish-log entries for a topic is the number of
publishes to it. -/
theorem pubsTo_runOps_length (beh : Beh) :
    ∀ (ops : List BusOp) (r : RunResult) (t : String),
    (pubsTo t (runOps beh r ops).plog).length
      = (pubsTo t r.plog).length + countPubsTo t ops := by
  intro ops
  induction ops with
  | nil => intro r t; simp [runOps, countPubsTo]
  | cons op rest ih =>
      intro r t
      rw [runOps_cons, ih]
      cases op with
      | pub t' b ts =>
          have hplog : (busStep beh r (.pub t' b ts)).plog
              = r.plog ++ [(t', (r.bus.topics t').length,
                  enrich t' b ts (r.bus.topics t').length)] := by
            simp [busStep]
          rw [hplog]
          simp only [pubsTo, List.filter_append, List.map_append, List.length_append,
            countPubsTo, List.countP_cons]
          by_cases ht : t' == t
          · simp [ht, countPubsTo]
            omega
          · simp [ht, countPubsTo]
      | sub t' c =>
          have hplog : (busStep beh r (.sub t' c)).plog = r.plog := rfl
          rw [hplog]
          simp [countPubsTo, List.countP_cons]

/-- Helper: the same count from a fresh bus. -/
theorem pubsTo_busRun_length (beh : Beh) (ops : List BusOp) (t : String) :
    (pubsTo t (busRun beh emptyBus ops).plog).length = countPubsTo t ops := by
  rw [busRun, pubsTo_runOps_length]
  simp [pubsTo]

/-- C2 corrected/amended: along any run from a fresh bus, the sequence ids
stamped on successive publishes to a topic follow the saturating law `min k
1000` (the id is the buffer length, which stops growing at the `maxlen`
bound): they are monotone non-decreasing over the whole run, and strictly
increasing only within the first `1001` publishes to that topic. -/
theorem publish_sequence_ids_saturating (beh : Beh) (ops : List BusOp) (t : String) :
    (pubsTo t (busRun beh emptyBus ops).plog).map (·.1)
      = idsSpec (pubsTo t (busRun beh emptyBus ops).plog).length ∧
    List.Pairwise (· ≤ ·) ((pubsTo t (busRun beh emptyBus ops).plog).map (·.1)) ∧
    List.Pairwise (· < ·)
      (((pubsTo t (busRun beh emptyBus ops).plog).map (·.1)).take (busBound + 1)) := by
  have h := (run_inv beh ops t).2
  refine ⟨h, ?_, ?_⟩
  · rw [h]; exact idsSpec_pairwise_le _
  · rw [h]; exact idsSpec_take_pairwise_lt _

/-- C2 counterexample: the claim "the sequence id is strictly monotonically
increasing across successive publishes … including beyond the 1000-message
buffer bound" is false at a concrete input: after 1002 publishes to one
topic of a fresh bus, publishes number 1001 and 1002 (indices 1000 and
1001) both carry sequence id 1000, because the id is
`len(self.topics[topic])` and the `deque(maxlen=1000)` stops growing. -/
theorem publish_seq_ids_equal_beyond_bound :
    ((pubsTo "vitals" (busRun behOk emptyBus pub1002).plog).map (·.1))[1000]?
      = some 1000 ∧
    ((pubsTo "vitals" (busRun behOk emptyBus pub1002).plog).map (·.1))[1001]?
      = some 1000 := by
  have hlen : (pubsTo "vitals" (busRun behOk emptyBus pub1002).plog).length = 1002 := by
    rw [pubsTo_busRun_length]
    simp [countPubsTo, pub1002, countP_replicate]
  have hids := (run_inv behOk pub1002 "vitals").2
  rw [hlen] at hids
  rw [hids]
  constructor
  · rw [idsSpec, List.getElem?_map, List.getElem?_range (by norm_num)]
    simp [busBound]
  · rw [idsSpec, List.getElem?_map, List.getElem?_range (by norm_num)]
    simp [busBound]

/-- C8 amended: for `N ≥ 1`, `get_messages` returns at most `min N 1000`
messages, a suffix (the newest part) of the topic's buffer; the buffer
itself never exceeds 1000 entries and always consists of the most recent
publishes with the oldest evicted first; and the stamped sequence ids over
the topic's publish history are non-decreasing (so buffer and any returned
slice are ordered oldest-to-newest by sequence id).  The `N = 0` case is
excluded: there `messages[-0:]` returns the entire buffer. -/
theorem get_recent_bounded_and_ordered (beh : Beh) (ops : List BusOp)
    (t : String) (N : ℕ) (hN : 1 ≤ N) :
    (get_messages (busRun beh emptyBus ops).bus t N).length ≤ min N busBound ∧
    (get_messages (busRun beh emptyBus ops).bus t N) <:+
      (busRun beh emptyBus ops).bus.topics t ∧
    ((busRun beh emptyBus ops).bus.topics t).length ≤ busBound ∧
    (busRun beh emptyBus ops).bus.topics t
      = keepLast (msgsTo t (busRun beh emptyBus ops).plog) ∧
    List.Pairwise (· ≤ ·) ((pubsTo t (busRun beh emptyBus ops).plog).map (·.1)) := by
  obtain ⟨hbuf, hids⟩ := run_inv beh ops t
  have hN0 : N ≠ 0 := by omega
  have hget : get_messages (busRun beh emptyBus ops).bus t N
      = ((busRun beh emptyBus ops).bus.topics t).drop
          (((busRun beh emptyBus ops).bus.topics t).length - N) := by
    simp [get_messages, hN0]
  have hblen : ((busRun beh emptyBus ops).bus.topics t).length ≤ busBound := by
    rw [hbuf, keepLast_length]
    omega
  refine ⟨?_, ?_, hblen, hbuf, ?_⟩
  · rw [hget]
    simp only [List.length_drop]
    omega
  · rw [hget]
    exact List.drop_suffix _ _
  · rw [hids]
    exact idsSpec_pairwise_le _

/-- Witness for the C8 theorem: one publish, `N = 5`. -/
theorem get_recent_bounded_and_ordered_witness :
    (get_messages (busRun behOk emptyBus [.pub "vitals" [] "T"]).bus "vitals" 5).length
        ≤ min 5 busBound ∧
    (get_messages (busRun behOk emptyBus [.pub "vitals" [] "T"]).bus "vitals" 5) <:+
      (busRun behOk emptyBus [.pub "vitals" [] "T"]).bus.topics "vitals" ∧
    ((busRun behOk emptyBus [.pub "vitals" [] "T"]).bus.topics "vitals").length ≤ busBound ∧
    (busRun behOk emptyBus [.pub "vitals" [] "T"]).bus.topics "vitals"
      = keepLast (msgsTo "vitals" (busRun behOk emptyBus [.pub "vitals" [] "T"]).plog) ∧
    List.Pairwise (· ≤ ·)
      ((pubsTo "vitals" (busRun behOk emptyBus [.pub "vitals" [] "T"]).plog).map (·.1)) :=
  get_recent_bounded_and_ordered behOk [.pub "vitals" [] "T"] "vitals" 5 (by norm_num)

/-- C8 counterexample: the claim "`get_recent(topic, N)` returns at most
`min(N, 1000)` messages for every non-negative N" is false at `N = 0`: on a
bus holding one `vitals` message, `get_messages(_, "vitals", 0)` returns
that one message (Python `messages[-0:]` is the whole list), exceeding
`min(0, 1000) = 0`. -/
theorem get_recent_zero_returns_everything :
    (get_messages busOneMsg "vitals" 0).length = 1 ∧
    ¬ ((get_messages busOneMsg "vitals" 0).length ≤ min 0 busBound) := by
  decide

/-- Helper: subscriber lists only grow across one step. -/
theorem busStep_subscribers_grow (beh : Beh) (r : RunResult) (op : BusOp) (t : String) :
    r.bus.subscribers t <+: (busStep beh r op).bus.subscribers t := by
  cases op with
  | pub t' b ts => exact List.prefix_refl _
  | sub t' c =>
      by_cases ht : t = t'
      · subst ht
        simp [busStep, subscribe]
      · simp [busStep, subscribe, ht]

/-- Helper: subscriber lists only grow across a run. -/
theorem runOps_subscribers_grow (beh : Beh) :
    ∀ (ops : List BusOp) (r : RunResult) (t : String),
    r.bus.subscribers t <+: (runOps beh r ops).bus.subscribers t := by
  intro ops
  induction ops with
  | nil => intro r t; exact List.prefix_refl _
  | cons op rest ih =>
      intro r t
      rw [runOps_cons]
      exact (busStep_subscribers_grow beh r op t).trans (ih _ t)

/-- Helper: any step other than re-subscribing this callback preserves its
multiplicity in the subscriber list. -/
theorem busStep_subscribers_count (beh : Beh) (r : RunResult) (op : BusOp)
    (t : String) (c : ℕ) (h : op ≠ .sub t c) :
    ((busStep beh r op).bus.subscribers t).count c = (r.bus.subscribers t).count c := by
  cases op with
  | pub t' b ts => rfl
  | sub t' c' =>
      by_cases ht : t = t'
      · subst ht
        have hc : c' ≠ c := by
          intro hcc
          exact h (by rw [hcc])
        simp [busStep, subscribe, List.count_append]
        rw [List.count_singleton']
        simp [hc]
      · simp [busStep, subscribe, ht]

/-- Helper: the deliveries of one callback split along an event-log
split. -/
theorem eventsFor_append (c : ℕ) (t : String) (l1 l2 : List (ℕ × String × Dict)) :
    eventsFor c t (l1 ++ l2) = eventsFor c t l1 ++ eventsFor c t l2 := by
  simp [eventsFor]

/-- Helper: one publish's deliveries to a fixed callback and topic. -/
theorem eventsFor_map_subs (c : ℕ) (t t' : String) (subs : List ℕ) (m : Dict) :
    eventsFor c t (subs.map fun c' => (c', t', m))
      = if t' = t then List.replicate (subs.count c) m else [] := by
  by_cases ht : t' = t
  · subst ht
    simp only [eventsFor, List.filter_map, if_pos rfl, if_true]
    have hp : ((fun (e : ℕ × String × Dict) => e.1 == c && e.2.1 == t')
        ∘ fun c' => (c', t', m)) = fun c' => c' == c := by
      funext c'
      simp
    rw [hp, List.map_map]
    have hconst : ((fun (e : ℕ × String × Dict) => e.2.2) ∘ fun c' => (c', t', m))
        = fun _ => m := rfl
    rw [hconst, List.map_const']
    congr 1
    rw [List.count, List.countP_eq_length_filter]
  · simp only [eventsFor, List.filter_map, if_neg ht]
    have hp : ((fun (e : ℕ × String × Dict) => e.1 == c && e.2.1 == t)
        ∘ fun c' => (c', t', m)) = fun _ => false := by
      funext c'
      simp [ht]
    rw [hp]
    simp

/-- Helper: the events one publish step appends. -/
theorem busStep_pub_events (beh : Beh) (r : RunResult) (t' : String) (b : Dict) (ts : String) :
    (busStep beh r (.pub t' b ts)).events
      = r.events ++ (r.bus.subscribers t').map
          (fun c' => (c', t', enrich t' b ts (r.bus.topics t').length)) := by
  simp [busStep, (publish_spec beh r.bus t' b ts).1]

/-- Helper: the messages of a one-entry publish log. -/
theorem msgsTo_single (t t' : String) (n : ℕ) (m : Dict) :
    msgsTo t [(t', n, m)] = if t' = t then [m] else [] := by
  by_cases ht : t' = t
  · subst ht
    simp [msgsTo, pubsTo]
  · simp [msgsTo, pubsTo, ht]

/-- Helper: the messages of a split publish log. -/
theorem msgsTo_append (t : String) (l1 l2 : List (String × ℕ × Dict)) :
    msgsTo t (l1 ++ l2) = msgsTo t l1 ++ msgsTo t l2 := by
  simp [msgsTo, pubsTo]

/-- Helper: a callback that is not subscribed at the end of a run (and so,
since subscriber lists only grow, was never subscribed during it) is
delivered nothing during that run. -/
theorem eventsFor_run_nil (beh : Beh) :
    ∀ (ops : List BusOp) (s : Bus) (t : String) (c : ℕ),
    c ∉ (runOps beh ⟨s, [], []⟩ ops).bus.subscribers t →
    eventsFor c t (runOps beh ⟨s, [], []⟩ ops).events = [] := by
  intro ops
  induction ops with
  | nil => intro s t c _; simp [runOps, eventsFor]
  | cons op rest ih =>
      intro s t c h
      rw [runOps_cons] at h ⊢
      obtain ⟨hb, he, _⟩ := runOps_decomp beh rest (busStep beh ⟨s, [], []⟩ op)
      rw [hb] at h
      have hc1 : c ∉ (busStep beh ⟨s, [], []⟩ op).bus.subscribers t := by
        intro hmem
        exact h ((runOps_subscribers_grow beh rest _ t).subset hmem)
      have hc0 : c ∉ s.subscribers t := by
        intro hmem
        exact hc1 ((busStep_subscribers_grow beh ⟨s, [], []⟩ op t).subset hmem)
      rw [he, eventsFor_append]
      have hstep : eventsFor c t (busStep beh ⟨s, [], []⟩ op).events = [] := by
        cases op with
        | pub t' b ts =>
            rw [busStep_pub_events]
            simp only [List.nil_append]
            rw [eventsFor_map_subs]
            by_cases ht : t' = t
            · subst ht
              rw [if_pos rfl, List.count_eq_zero_of_not_mem hc0]
              simp
            · rw [if_neg ht]
        | sub t' c' => simp [busStep, eventsFor]
      rw [hstep]
      have hrest : eventsFor c t
          (runOps beh ⟨(busStep beh ⟨s, [], []⟩ op).bus, [], []⟩ rest).events = [] :=
        ih _ t c h
      rw [hrest]
      simp

/-- Helper: a callback subscribed exactly once at the start of a run, and
never re-subscribed during it, is delivered exactly the messages published
to its topic during that run, in publish order. -/
theorem eventsFor_run_count_one (beh : Beh) :
    ∀ (ops : List BusOp) (s : Bus) (t : String) (c : ℕ),
    (s.subscribers t).count c = 1 →
    BusOp.sub t c ∉ ops →
    eventsFor c t (runOps beh ⟨s, [], []⟩ ops).events
      = msgsTo t (runOps beh ⟨s, [], []⟩ ops).plog := by
  intro ops
  induction ops with
  | nil => intro s t c _ _; simp [runOps, eventsFor, msgsTo, pubsTo]
  | cons op rest ih =>
      intro s t c h1 h2
      have hop : op ≠ BusOp.sub t c := fun hx => h2 (hx ▸ List.mem_cons_self op rest)
      have h2' : BusOp.sub t c ∉ rest := fun hx => h2 (List.mem_cons_of_mem op hx)
      rw [runOps_cons]
      obtain ⟨hb, he, hp⟩ := runOps_decomp beh rest (busStep beh ⟨s, [], []⟩ op)
      rw [he, hp, eventsFor_append, msgsTo_append]
      have hcount : ((busStep beh ⟨s, [], []⟩ op).bus.subscribers t).count c = 1 := by
        rw [busStep_subscribers_count beh _ op t c hop]
        exact h1
      have htail := ih (busStep beh ⟨s, [], []⟩ op).bus t c hcount h2'
      have hhead : eventsFor c t (busStep beh ⟨s, [], []⟩ op).events
          = msgsTo t (busStep beh ⟨s, [], []⟩ op).plog := by
        cases op with
        | pub t' b ts =>
            rw [busStep_pub_events]
            simp only [List.nil_append]
            rw [eventsFor_map_subs]
            have hplog : (busStep beh ⟨s, [], []⟩ (.pub t' b ts)).plog
                = [(t', (s.topics t').length, enrich t' b ts (s.topics t').length)] := by
              simp [busStep]
            rw [hplog, msgsTo_single]
            by_cases ht : t' = t
            · subst ht
              rw [if_pos rfl, if_pos rfl, h1]
              simp
            · rw [if_neg ht, if_neg ht]
        | sub t' c' => simp [busStep, eventsFor, msgsTo, pubsTo]
      rw [hhead, htail]

/-- C3: a callback subscribed to a topic after an arbitrary prefix of
operations (to which it was not previously subscribed) is delivered none of
the messages published before its subscription, and is delivered exactly
the messages published to that topic afterwards — once each, in publish
order (no re-subscription afterwards); moreover within each single publish,
callbacks are invoked in subscriber-list order, which `subscribe` maintains
as subscription order. -/
theorem late_subscription_no_replay_full_delivery
    (beh : Beh) (s : Bus) (pre post : List BusOp) (t : String) (c : ℕ)
    (h1 : c ∉ (busRun beh s pre).bus.subscribers t)
    (h2 : BusOp.sub t c ∉ post) :
    eventsFor c t (busRun beh s (pre ++ BusOp.sub t c :: post)).events
      = msgsTo t (busRun beh (subscribe (busRun beh s pre).bus t c) post).plog ∧
    (∀ (s' : Bus) (t' : String) (b : Dict) (ts : String),
      (publish beh s' t' b ts).events
        = (s'.subscribers t').map
            (fun c' => (c', t', enrich t' b ts (s'.topics t').length))) := by
  constructor
  · have hsplit : busRun beh s (pre ++ BusOp.sub t c :: post)
        = runOps beh (busStep beh (busRun beh s pre) (.sub t c)) post := by
      rw [busRun, busRun, runOps, runOps, List.foldl_append, List.foldl_cons]
      rfl
    have hstep : busStep beh (busRun beh s pre) (.sub t c)
        = ⟨subscribe (busRun beh s pre).bus t c,
           (busRun beh s pre).events, (busRun beh s pre).plog⟩ := rfl
    rw [hsplit, hstep]
    obtain ⟨hb, he, hp⟩ := runOps_decomp beh post
      ⟨subscribe (busRun beh s pre).bus t c,
       (busRun beh s pre).events, (busRun beh s pre).plog⟩
    rw [he, eventsFor_append]
    have hpre : eventsFor c t (busRun beh s pre).events = [] :=
      eventsFor_run_nil beh pre s t c h1
    have hcount : ((subscribe (busRun beh s pre).bus t c).subscribers t).count c = 1 := by
      have hs : (subscribe (busRun beh s pre).bus t c).subscribers t
          = (busRun beh s pre).bus.subscribers t ++ [c] := by
        simp [subscribe]
      rw [hs, List.count_append, List.count_eq_zero_of_not_mem h1]
      simp
    have hpost := eventsFor_run_count_one beh post
      (subscribe (busRun beh s pre).bus t c) t c hcount h2
    rw [hpre]
    simp only [List.nil_append]
    exact hpost
  · intro s' t' b ts
    exact (publish_spec beh s' t' b ts).1

/-- Witness for the C3 theorem: callback 3 subscribes to `vitals` after one
publish; two publishes follow, one to `vitals` and one to `labs`. -/
theorem late_subscription_no_replay_full_delivery_witness :
    eventsFor 3 "vitals"
      (busRun behOk emptyBus
        ([.pub "vitals" [("k", .str "v1")] "T1"] ++ BusOp.sub "vitals" 3 ::
         [.pub "vitals" [("k", .str "v2")] "T2", .pub "labs" [] "T3"])).events
      = msgsTo "vitals"
          (busRun behOk
            (subscribe (busRun behOk emptyBus
              [.pub "vitals" [("k", .str "v1")] "T1"]).bus "vitals" 3)
            [.pub "vitals" [("k", .str "v2")] "T2", .pub "labs" [] "T3"]).plog :=
  (late_subscription_no_replay_full_delivery behOk emptyBus
    [.pub "vitals" [("k", .str "v1")] "T1"]
    [.pub "vitals" [("k", .str "v2")] "T2", .pub "labs" [] "T3"]
    "vitals" 3 (by decide) (by decide)).1

end AgenticICU
